import Mathlib

/-!
Shallow embedding of the `ai-transcripts-analyzer` backend services
(`cache.service.ts`, `openai.service.ts`, `transcript-processing.service.ts`).

Modelling conventions: JavaScript numbers are modelled as `ℚ` (monetary
amounts, token estimates) or `ℤ` (millisecond timestamps and TTLs); JS
strings as `String` (ASCII approximation of Unicode case folding and
whitespace); JS `Map` and plain objects as insertion-ordered association
lists; `Array.prototype.sort` (stable since ES2019) as `List.mergeSort`.
Fallible upstream effects (the OpenAI request, `JSON.parse`) are passed in
as explicit outcome values, matching the `try`/`catch` structure of the
source.
-/

-- ### JS string primitives

/-- JS whitespace test (`trim`, regex `\s`), restricted to the ASCII range. -/
def isSpaceChar (c : Char) : Bool :=
  c = ' ' || c = '\t' || c = '\n' || c = '\r' || c = '\x0b' || c = '\x0c'

/-- `String.prototype.toLowerCase` (ASCII case folding). -/
def jsToLower (s : String) : String :=
  (s.toList.map Char.toLower).asString

/-- `String.prototype.trim` (ASCII whitespace). -/
def jsTrim (s : String) : String :=
  (((s.toList.dropWhile isSpaceChar).reverse.dropWhile isSpaceChar).reverse).asString

/-- First argument is a leading fragment of the second. -/
def hasPrefixL : List Char → List Char → Bool
  | [], _ => true
  | _ :: _, [] => false
  | a :: as, b :: bs => a == b && hasPrefixL as bs

/-- The second list occurs contiguously somewhere inside the first. -/
def containsSubL : List Char → List Char → Bool
  | [], need => need.isEmpty
  | a :: t, need => hasPrefixL need (a :: t) || containsSubL t need

/-- `String.prototype.includes`. -/
def jsIncludes (s q : String) : Bool :=
  containsSubL s.toList q.toList

/-- JS `String.prototype.split` with separator `'\n'`. -/
def splitNewlinesAux : List Char → List Char → List String
  | [], acc => [acc.reverse.asString]
  | c :: rest, acc =>
      if c = '\n' then acc.reverse.asString :: splitNewlinesAux rest []
      else splitNewlinesAux rest (c :: acc)

/-- Split a string on newline characters, JS `split('\n')` semantics. -/
def splitNewlines (s : String) : List String :=
  splitNewlinesAux s.toList []

-- ### cache.service.ts

structure CacheItem (α : Type) where
  data : α
  timestamp : Int
  ttl : Int
deriving DecidableEq

/-- The backing `Map<string, CacheItem>`, as an insertion-ordered association list. -/
abbrev Cache (α : Type) := List (String × CacheItem α)

/-- `Map.prototype.get`. -/
def mapGet {α : Type} : Cache α → String → Option (CacheItem α)
  | [], _ => none
  | (k0, it) :: rest, k => if k0 = k then some it else mapGet rest k

/-- `Map.prototype.set`: overwrite an existing key in place, else append. -/
def mapSet {α : Type} : Cache α → String → CacheItem α → Cache α
  | [], k, it => [(k, it)]
  | (k0, it0) :: rest, k, it =>
      if k0 = k then (k, it) :: rest else (k0, it0) :: mapSet rest k it

/-- `Map.prototype.delete`, state part only. -/
def mapDelete {α : Type} : Cache α → String → Cache α
  | [], _ => []
  | (k0, it0) :: rest, k => if k0 = k then rest else (k0, it0) :: mapDelete rest k

/-- `CacheService.set`: `const expirationTime = ttl || this.defaultTtl` (a `0`
or absent TTL argument falls back to the configured default), then
`this.cache.set(key, { data, timestamp, ttl: expirationTime })`. -/
def CacheService.set {α : Type} (defaultTtl : Int) (cache : Cache α) (key : String)
    (data : α) (ttl : Option Int) (now : Int) : Cache α :=
  let expirationTime : Int :=
    match ttl with
    | none => defaultTtl
    | some t => if t = 0 then defaultTtl else t
  mapSet cache key { data := data, timestamp := now, ttl := expirationTime }

/-- `CacheService.get`: returns the stored value (`null` modelled as `none`)
together with the resulting cache state; an entry discovered expired
(`now - item.timestamp > item.ttl`) is deleted as a side effect. -/
def CacheService.get {α : Type} (cache : Cache α) (key : String) (now : Int) :
    Option α × Cache α :=
  match mapGet cache key with
  | none => (none, cache)
  | some item =>
      if now - item.timestamp > item.ttl then (none, mapDelete cache key)
      else (some item.data, cache)

/-- `CacheService.has`: same expiry-aware logic as `get`, returning a boolean. -/
def CacheService.has {α : Type} (cache : Cache α) (key : String) (now : Int) :
    Bool × Cache α :=
  match mapGet cache key with
  | none => (false, cache)
  | some item =>
      if now - item.timestamp > item.ttl then (false, mapDelete cache key)
      else (true, cache)

/-- JS object property access `params[key]` over the modelled parameter record. -/
def lookupA {β : Type} : List (String × β) → String → Option β
  | [], _ => none
  | (k0, v) :: rest, k => if k0 = k then some v else lookupA rest k

/-- `CacheService.generateKey`: `Object.keys(params).sort()` mapped to
`key:value` fragments, joined with `|`, prefixed with `prefix + ':'`.
Parameter values are modelled post-stringification. -/
def CacheService.generateKey (pre : String) (params : List (String × String)) : String :=
  let sortedParams := String.intercalate "|"
    (((params.map Prod.fst).mergeSort (fun a b => decide (a ≤ b))).map
      (fun key => key ++ ":" ++ ((lookupA params key).getD "")))
  pre ++ ":" ++ sortedParams

-- ### openai.service.ts : budget tracking

structure TokenUsage where
  prompt_tokens : Option ℕ
  completion_tokens : Option ℕ
  total_tokens : Option ℕ
deriving DecidableEq

structure UsageState where
  prompt : ℕ
  completion : ℕ
  total : ℕ
  estimatedCost : ℚ
deriving DecidableEq

/-- `OpenAiService.trackUsage`: adds the (possibly absent) token counts to the
running totals and accumulates the cost with the gpt-4o-mini price table
(input 0.15 $/1M tokens, output 0.60 $/1M tokens). -/
def OpenAiService.trackUsage (s : UsageState) (usage : Option TokenUsage) : UsageState :=
  match usage with
  | none => s
  | some u =>
      let promptCost : ℚ := ((u.prompt_tokens.getD 0 : ℚ) * 0.15) / 1000000
      let completionCost : ℚ := ((u.completion_tokens.getD 0 : ℚ) * 0.6) / 1000000
      { prompt := s.prompt + u.prompt_tokens.getD 0
        completion := s.completion + u.completion_tokens.getD 0
        total := s.total + u.total_tokens.getD 0
        estimatedCost := s.estimatedCost + (promptCost + completionCost) }

/-- Body of `OpenAiService.canPerformOperation` with the hard-coded budget
ceiling generalised to a parameter, for stating the spec's ceiling-0 property. -/
def OpenAiService.canPerformOperationBudget
    (budget accumulatedCost estimatedTokens : ℚ) : Bool :=
  decide (accumulatedCost + estimatedTokens * 0.375 / 1000000 ≤ budget)

/-- `OpenAiService.canPerformOperation`: blended 0.375 $/1M rate, ceiling `5.0`. -/
def OpenAiService.canPerformOperation (accumulatedCost estimatedTokens : ℚ) : Bool :=
  OpenAiService.canPerformOperationBudget 5 accumulatedCost estimatedTokens

-- ### openai.service.ts : response cleaning and classification

/-- `OpenAiService.cleanJsonResponse`: trims, strips a leading triple-backtick
fence (with or without the `json` tag) together with the whitespace that
follows it, strips a trailing fence together with the whitespace that
precedes it, and trims again. -/
def cleanJsonResponse (content : String) : String :=
  let cleaned := jsTrim content
  let cleaned :=
    if hasPrefixL "```json".toList cleaned.toList then
      ((cleaned.toList.drop 7).dropWhile isSpaceChar).asString
    else cleaned
  let cleaned :=
    if hasPrefixL "```".toList cleaned.toList then
      ((cleaned.toList.drop 3).dropWhile isSpaceChar).asString
    else cleaned
  let cleaned :=
    if hasPrefixL "```".toList cleaned.toList.reverse then
      ((cleaned.toList.reverse.drop 3).dropWhile isSpaceChar).reverse.asString
    else cleaned
  jsTrim cleaned

/-- `TranscriptMessage` as produced at runtime: the `speaker` field is typed
as the enum `'AGENT' | 'CLIENT' | 'SYSTEM'` in the source interface, but the
parser stores the raw matched token through an unchecked `as` cast, so the
embedding uses `String` and the theorems speak about which values occur. -/
structure TranscriptMessage where
  timestamp : String
  speaker : String
  content : String
deriving DecidableEq

structure ParsedTranscript where
  id : String
  fileName : String
  messages : List TranscriptMessage
  duration : Option String := none
  summary : Option String := none
  category : Option String := none
  topics : Option (List String) := none
deriving DecidableEq

/-- `OpenAiService.createTranscriptSummary`: non-`'SYSTEM'` messages, first
20, rendered as `SPEAKER: content` lines under an `ID:` header. -/
def createTranscriptSummary (t : ParsedTranscript) : String :=
  let messages := String.intercalate "\n"
    (((t.messages.filter (fun m => m.speaker != "SYSTEM")).take 20).map
      (fun m => m.speaker ++ ": " ++ m.content))
  "ID: " ++ t.id ++ "\nMessages:\n" ++ messages

structure ClassificationResponse where
  category : String
  confidence : ℚ
  reasoning : String
deriving DecidableEq

structure ClassificationResult where
  transcriptId : String
  category : String
  confidence : ℚ
  reasoning : String
deriving DecidableEq

/-- The upstream chat completion, reduced to the fields the service reads:
`response.choices[0].message.content` (nullable) and `response.usage`. -/
structure ChatResponse where
  content : Option String
  usage : Option TokenUsage

/-- Outcome of the awaited OpenAI request: either the promise rejected with an
error message, or a response arrived. -/
inductive UpstreamOutcome where
  | failure (msg : String)
  | success (resp : ChatResponse)

/-- `OpenAiService.classifyTranscript`. The JSON parser is passed explicitly
(`JSON.parse` as an opaque fallible step); the `try`/`catch` of the source
shows up as the two error branches, both producing the sentinel result.
Returns the result together with the updated usage state (`trackUsage` runs
once a response arrived, before parsing). -/
def OpenAiService.classifyTranscript
    (parseJson : String → Except String ClassificationResponse)
    (s : UsageState) (transcript : ParsedTranscript) (outcome : UpstreamOutcome) :
    ClassificationResult × UsageState :=
  match outcome with
  | .failure msg =>
      ({ transcriptId := transcript.id, category := "error", confidence := 0,
         reasoning := "Classification failed: " ++ msg }, s)
  | .success resp =>
      let s2 := OpenAiService.trackUsage s resp.usage
      let rawContent := resp.content.getD "{}"
      let cleanedContent := cleanJsonResponse rawContent
      match parseJson cleanedContent with
      | .error msg =>
          ({ transcriptId := transcript.id, category := "error", confidence := 0,
             reasoning := "Classification failed: " ++ msg }, s2)
      | .ok result =>
          ({ transcriptId := transcript.id, category := result.category,
             confidence := result.confidence, reasoning := result.reasoning }, s2)

-- ### openai.service.ts : batch topic aggregation (extractTopicsFromBatch)

/-- One element of `transcriptAnalysis`: the per-transcript result collected
from the AI inside `extractTopicsFromBatch` before aggregation. -/
structure TranscriptAnalysis where
  transcriptId : String
  topics : List String
  category : String
deriving DecidableEq

/-- Value type of the source's `topicMap`. The JS `Set<string>` of categories
is modelled as an insertion-ordered duplicate-free list. -/
structure TopicData where
  frequency : ℕ
  transcripts : List String
  categories : List String
deriving DecidableEq

/-- `Set.prototype.add`. -/
def addCategory (cats : List String) (c : String) : List String :=
  if c ∈ cats then cats else cats ++ [c]

/-- `topic.toLowerCase().trim()`. -/
def normalizeTopic (s : String) : String :=
  jsTrim (jsToLower s)

/-- One iteration of the inner aggregation loop: update `topicMap` at
`normalizedTopic`, bumping `frequency`, pushing `transcriptId` and adding
`category`, or creating a fresh entry appended at the end (JS `Map`
insertion order). -/
def bumpTopic (m : List (String × TopicData)) (tid cat ntopic : String) :
    List (String × TopicData) :=
  match m with
  | [] => [(ntopic, { frequency := 1, transcripts := [tid], categories := [cat] })]
  | (k, d) :: rest =>
      if k = ntopic then
        (k, { frequency := d.frequency + 1, transcripts := d.transcripts ++ [tid],
              categories := addCategory d.categories cat }) :: rest
      else (k, d) :: bumpTopic rest tid cat ntopic

/-- The inner `for (const topic of topics)` loop for one analysed transcript. -/
def addTranscriptTopics (m : List (String × TopicData)) (a : TranscriptAnalysis) :
    List (String × TopicData) :=
  a.topics.foldl (fun m t => bumpTopic m a.transcriptId a.category (normalizeTopic t)) m

/-- The outer aggregation loop of `extractTopicsFromBatch`, building `topicMap`. -/
def buildTopicMap (analyses : List TranscriptAnalysis) : List (String × TopicData) :=
  analyses.foldl addTranscriptTopics []

/-- `OpenAiService.capitalizeFirstLetter`. -/
def capitalizeFirstLetter (s : String) : String :=
  match s.toList with
  | [] => ""
  | c :: rest => (Char.toUpper c :: rest).asString

/-- The `descriptions` record of `generateTopicDescription`, in source order. -/
def topicDescriptions : List (String × String) :=
  [("billing", "Issues related to billing, charges, and payment inquiries"),
   ("technical", "Technical problems with services like internet, TV, or phone"),
   ("activation", "Service activation and setup requests"),
   ("support", "General customer support and assistance requests"),
   ("complaint", "Customer complaints and dissatisfaction issues"),
   ("commercial", "Commercial inquiries about plans, promotions, and upgrades"),
   ("refund", "Refund requests and credit adjustments"),
   ("cancellation", "Service cancellation and termination requests"),
   ("internet", "Internet connectivity and speed related issues"),
   ("plan", "Plan changes, upgrades, and service modifications")]

/-- `OpenAiService.generateTopicDescription`. -/
def OpenAiService.generateTopicDescription (topic : String) : String :=
  let lowerTopic := jsToLower topic
  match topicDescriptions.find? (fun kv => jsIncludes lowerTopic kv.1) with
  | some kv => kv.2
  | none => "Customer service topic related to " ++ jsToLower topic

/-- The aggregated topic records returned by `extractTopicsFromBatch`. -/
structure TopicAnalysis where
  topic : String
  frequency : ℕ
  relevantTranscripts : List String
  categories : List String
  description : String
deriving DecidableEq

/-- `.sort((a, b) => b.frequency - a.frequency)` on the aggregated topics
(stable in modern JS engines, modelled by `List.mergeSort`). -/
def sortByFrequencyDesc (l : List TopicAnalysis) : List TopicAnalysis :=
  l.mergeSort (fun a b => decide (b.frequency ≤ a.frequency))

/-- The aggregation section of `OpenAiService.extractTopicsFromBatch`
(everything after the per-transcript AI calls): build `topicMap` from the
collected `transcriptAnalysis` entries, render each entry, sort by
descending frequency and keep the top `maxTopics`. -/
def OpenAiService.aggregateTopics (analyses : List TranscriptAnalysis)
    (maxTopics : ℕ) : List TopicAnalysis :=
  (sortByFrequencyDesc ((buildTopicMap analyses).map (fun kd =>
    { topic := capitalizeFirstLetter kd.1
      frequency := kd.2.frequency
      relevantTranscripts := kd.2.transcripts
      categories := kd.2.categories
      description := OpenAiService.generateTopicDescription kd.1 }))).take maxTopics

-- ### transcript-processing.service.ts : line parser

/-- JS regex `\w` character class. -/
def isWordChar (c : Char) : Bool :=
  c.isAlpha || c.isDigit || c = '_'

/-- Attempt the regex `\[([^\]]+)\]\s+(\w+):\s*(.+)` at the start of the given
character list, returning the three capture groups (timestamp, speaker,
content). `.` is modelled as matching any character (the input has already
been split on newlines); the backtracking of `\s*(.+)` at end of line is
rendered by capping the whitespace skip so at least one character remains. -/
def tryMatchLine (l : List Char) : Option (String × String × String) :=
  match l with
  | '[' :: rest =>
      let ts := rest.takeWhile (fun c => c != ']')
      let rest1 := rest.dropWhile (fun c => c != ']')
      if ts.isEmpty then none else
      match rest1 with
      | ']' :: rest2 =>
          let sps := rest2.takeWhile isSpaceChar
          let rest3 := rest2.dropWhile isSpaceChar
          if sps.isEmpty then none else
          let w := rest3.takeWhile isWordChar
          let rest4 := rest3.dropWhile isWordChar
          if w.isEmpty then none else
          match rest4 with
          | ':' :: rest5 =>
              if rest5.isEmpty then none else
              let k := min (rest5.takeWhile isSpaceChar).length (rest5.length - 1)
              some (ts.asString, w.asString, (rest5.drop k).asString)
          | _ => none
      | _ => none
  | _ => none

/-- Unanchored first-match semantics of `line.match(...)`: try each start
position from the left, first success wins. -/
def matchLine : List Char → Option (String × String × String)
  | [] => none
  | c :: rest =>
      match tryMatchLine (c :: rest) with
      | some r => some r
      | none => matchLine rest

/-- The parsing loop of `TranscriptProcessingService.parseTranscriptFile` over
a file's content: split on newlines, keep lines that are non-blank after
trimming, match each against the line regex, keep matches whose speaker token
is in `['AGENTE', 'CLIENTE', 'SISTEMA']`, and push the message. Note the
source stores the matched `speaker` token unchanged — the
`as 'AGENT' | 'CLIENT' | 'SYSTEM'` cast does not change the runtime value. -/
def parseTranscriptContent (content : String) : List TranscriptMessage :=
  let lines := (splitNewlines content).filter (fun line => jsTrim line ≠ "")
  lines.foldl (fun msgs line =>
    match matchLine line.toList with
    | some (timestamp, speaker, body) =>
        if (["AGENTE", "CLIENTE", "SISTEMA"] : List String).contains speaker then
          msgs ++ [{ timestamp := timestamp, speaker := speaker, content := jsTrim body }]
        else msgs
    | none => msgs) []

-- ### transcript-processing.service.ts : store operations

/-- `TranscriptProcessingService.getTranscriptById`:
`this.transcripts.find((t) => t.id === id)`. -/
def getTranscriptById (ts : List ParsedTranscript) (id : String) : Option ParsedTranscript :=
  ts.find? (fun t => t.id == id)

/-- In-place mutation of the object returned by `find`: rewrite the first
transcript with the given id, leave the rest untouched. -/
def replaceFirstById (ts : List ParsedTranscript) (id : String)
    (f : ParsedTranscript → ParsedTranscript) : List ParsedTranscript :=
  match ts with
  | [] => []
  | t :: rest =>
      if t.id == id then f t :: rest else t :: replaceFirstById rest id f

/-- `TranscriptProcessingService.updateTranscriptClassification`: sets
`category`, sets `summary` only when the argument is truthy (present and
non-empty), and is a logged no-op when the id is unknown. -/
def updateTranscriptClassification (ts : List ParsedTranscript)
    (transcriptId category : String) (summary : Option String) : List ParsedTranscript :=
  match getTranscriptById ts transcriptId with
  | some _ =>
      replaceFirstById ts transcriptId (fun t =>
        let t2 := { t with category := some category }
        match summary with
        | some s => if s ≠ "" then { t2 with summary := some s } else t2
        | none => t2)
  | none => ts

/-- `TranscriptProcessingService.updateTranscriptTopics`: overwrites `topics`
wholesale, silent no-op when the id is unknown. -/
def updateTranscriptTopics (ts : List ParsedTranscript)
    (transcriptId : String) (topics : List String) : List ParsedTranscript :=
  match getTranscriptById ts transcriptId with
  | some _ => replaceFirstById ts transcriptId (fun t => { t with topics := some topics })
  | none => ts

-- ### transcript-processing.service.ts : search

structure SearchResult where
  transcript : ParsedTranscript
  relevanceScore : ℕ
  matchedMessages : List TranscriptMessage
deriving DecidableEq

structure SearchOutput where
  results : List SearchResult
  total : ℕ
  page : ℕ
  totalPages : ℕ
deriving DecidableEq

/-- One message matches: `message.content.toLowerCase().includes(queryLower)`. -/
def msgMatches (queryLower : String) (m : TranscriptMessage) : Bool :=
  jsIncludes (jsToLower m.content) queryLower

/-- `transcript.summary?.toLowerCase().includes(queryLower)` (optional
chaining: an absent summary is falsy). -/
def summaryMatches (queryLower : String) (t : ParsedTranscript) : Bool :=
  match t.summary with
  | some s => jsIncludes (jsToLower s) queryLower
  | none => false

/-- `transcript.topics?.some((topic) => topic.toLowerCase().includes(queryLower))`. -/
def topicMatches (queryLower : String) (t : ParsedTranscript) : Bool :=
  match t.topics with
  | some l => l.any (fun tp => jsIncludes (jsToLower tp) queryLower)
  | none => false

/-- The `for (const message of transcript.messages)` loop: collect matching
messages and count one score point per match. -/
def scoreMessages (queryLower : String) (msgs : List TranscriptMessage) :
    List TranscriptMessage × ℕ :=
  msgs.foldl (fun acc m =>
    if msgMatches queryLower m then (acc.1 ++ [m], acc.2 + 1) else acc) ([], 0)

/-- Per-transcript body of the search loop: message score, then `+= 2` for a
summary match, then `+= 3` for a topic match. -/
def scoreTranscript (queryLower : String) (t : ParsedTranscript) : SearchResult :=
  let mm := scoreMessages queryLower t.messages
  let s1 := mm.2 + (if summaryMatches queryLower t then 2 else 0)
  let s2 := s1 + (if topicMatches queryLower t then 3 else 0)
  { transcript := t, relevanceScore := s2, matchedMessages := mm.1 }

/-- Stable descending sort on `relevanceScore`
(`searchResults.sort((a, b) => b.relevanceScore - a.relevanceScore)`). -/
def sortByScoreDesc (l : List SearchResult) : List SearchResult :=
  l.mergeSort (fun a b => decide (b.relevanceScore ≤ a.relevanceScore))

/-- `TranscriptProcessingService.searchTranscripts`: optional category filter,
scoring loop keeping only strictly positive scores, stable descending sort,
then the `slice(startIndex, endIndex)` pagination with
`startIndex = (page - 1) * limit` and `endIndex = startIndex + limit`
(`page ≥ 1`, as enforced by the request DTO, keeps the arithmetic faithful
over `ℕ`). `totalPages` is `Math.ceil(total / limit)`. -/
def searchTranscripts (ts : List ParsedTranscript) (query : String)
    (category : Option String) (page limit : ℕ) : SearchOutput :=
  let queryLower := jsToLower query
  let filteredTranscripts :=
    match category with
    | none => ts
    | some c => ts.filter (fun t => t.category == some c)
  let searchResults := filteredTranscripts.foldl (fun acc t =>
    let r := scoreTranscript queryLower t
    if r.relevanceScore > 0 then acc ++ [r] else acc) []
  let sorted := sortByScoreDesc searchResults
  let total := searchResults.length
  let totalPages := (total + limit - 1) / limit
  let startIndex := (page - 1) * limit
  { results := (sorted.drop startIndex).take limit
    total := total
    page := page
    totalPages := totalPages }

-- ### Spec-side restatement of the search pipeline (for the refinement claim)

/-- Modelled from the spec: a transcript's relevance score is the number of
case-insensitively matching messages, plus 2 for a summary match, plus 3 if
any topic matches. -/
def specScore (queryLower : String) (t : ParsedTranscript) : ℕ :=
  t.messages.countP (msgMatches queryLower)
    + (if summaryMatches queryLower t then 2 else 0)
    + (if topicMatches queryLower t then 3 else 0)

/-- Modelled from the spec: filter by category, score every transcript, keep
the strictly positive scores, sort stably by descending score, and paginate
with an offset/limit slice. -/
def specSearch (ts : List ParsedTranscript) (query : String)
    (category : Option String) (page limit : ℕ) : SearchOutput :=
  let queryLower := jsToLower query
  let pool :=
    match category with
    | none => ts
    | some c => ts.filter (fun t => t.category == some c)
  let scored := (pool.map (fun t =>
    ({ transcript := t, relevanceScore := specScore queryLower t,
       matchedMessages := t.messages.filter (msgMatches queryLower) } : SearchResult))).filter
    (fun r => 0 < r.relevanceScore)
  { results := ((sortByScoreDesc scored).drop ((page - 1) * limit)).take limit
    total := scored.length
    page := page
    totalPages := (scored.length + limit - 1) / limit }

-- ### Proof-support characterisations

/-- The effect of one `bumpTopic` hit on an optional `topicMap` entry. -/
def bump1 (od : Option TopicData) (tid cat : String) : TopicData :=
  match od with
  | none => { frequency := 1, transcripts := [tid], categories := [cat] }
  | some d => { frequency := d.frequency + 1, transcripts := d.transcripts ++ [tid],
                categories := addCategory d.categories cat }

/-- Frequency of an optional `topicMap` entry (0 when absent). -/
def freqOf (od : Option TopicData) : ℕ :=
  match od with
  | none => 0
  | some d => d.frequency

/-- Transcript list of an optional `topicMap` entry. -/
def transOf (od : Option TopicData) : List String :=
  match od with
  | none => []
  | some d => d.transcripts

/-- Number of occurrences of a normalised topic key in one transcript's
AI-reported topic list. -/
def occCount (a : TranscriptAnalysis) (key : String) : ℕ :=
  (a.topics.map normalizeTopic).count key

-- ### Helper lemmas

theorem mapGet_mapSet_self {α : Type} (m : Cache α) (k : String) (it : CacheItem α) :
    mapGet (mapSet m k it) k = some it := by
  induction m with
  | nil => simp [mapSet, mapGet]
  | cons kv rest ih =>
      obtain ⟨k0, it0⟩ := kv
      by_cases h : k0 = k <;> simp [mapSet, mapGet, h, ih]

theorem hasPrefixL_refl (l : List Char) : hasPrefixL l l = true := by
  induction l with
  | nil => rfl
  | cons c t ih => simp [hasPrefixL, ih]

theorem containsSubL_self (l : List Char) : containsSubL l l = true := by
  cases l with
  | nil => rfl
  | cons c t => simp [containsSubL, hasPrefixL_refl]

theorem containsSubL_append_left (a b : List Char) :
    containsSubL (a ++ b) b = true := by
  induction a with
  | nil => simpa using containsSubL_self b
  | cons c t ih => simp [containsSubL, ih]

theorem jsIncludes_append_self (pre msg : String) :
    jsIncludes (pre ++ msg) msg = true := by
  show containsSubL (pre ++ msg).data msg.data = true
  rw [String.data_append]
  exact containsSubL_append_left pre.data msg.data

theorem append_ne_empty_of_left_ne (pre msg : String) (h : pre.length ≠ 0) :
    pre ++ msg ≠ "" := by
  intro hc
  have hlen := congrArg String.length hc
  rw [String.length_append] at hlen
  simp only [String.length, List.length_nil] at hlen h
  omega

-- ### C1 : budget admission

/-- Claim C1: `canPerformOperation` returns true iff the accumulated cost plus
the blended-rate prospective cost (`estimatedTokens * 0.375 / 1,000,000`)
stays within the fixed `5.0` ceiling; admission is antitone in the token
estimate; and with a ceiling of `0` and a positive token estimate (from a
non-negative accumulated cost) it is always false. -/
theorem canPerformOperation_budget_admission (accumulatedCost n m tokens : ℚ)
    (hacc : 0 ≤ accumulatedCost) (hnm : n ≤ m) (htok : 0 < tokens) :
    (∀ est : ℚ, OpenAiService.canPerformOperation accumulatedCost est = true ↔
        accumulatedCost + est * 0.375 / 1000000 ≤ 5) ∧
    (OpenAiService.canPerformOperation accumulatedCost n = false →
        OpenAiService.canPerformOperation accumulatedCost m = false) ∧
    OpenAiService.canPerformOperationBudget 0 accumulatedCost tokens = false := by
  unfold OpenAiService.canPerformOperation OpenAiService.canPerformOperationBudget
  refine ⟨fun est => by simp [decide_eq_true_eq], ?_, ?_⟩
  · simp only [decide_eq_false_iff_not, not_le]
    intro h
    have hcoef : n * 0.375 / 1000000 ≤ m * 0.375 / 1000000 := by
      have : n * 0.375 ≤ m * 0.375 := by nlinarith
      linarith
    linarith
  · simp only [decide_eq_false_iff_not, not_le]
    have : 0 < tokens * 0.375 / 1000000 := by positivity
    linarith

/-- Witness for C1 at `accumulatedCost = 0`, `n = 1`, `m = 2`, `tokens = 1`. -/
theorem canPerformOperation_budget_admission_witness :
    ((0 : ℚ) ≤ 0 ∧ (1 : ℚ) ≤ 2 ∧ (0 : ℚ) < 1) ∧
    ((∀ est : ℚ, OpenAiService.canPerformOperation 0 est = true ↔
        (0 : ℚ) + est * 0.375 / 1000000 ≤ 5) ∧
     (OpenAiService.canPerformOperation 0 1 = false →
        OpenAiService.canPerformOperation 0 2 = false) ∧
     OpenAiService.canPerformOperationBudget 0 0 1 = false) :=
  ⟨⟨by decide, by decide, by decide⟩,
   canPerformOperation_budget_admission 0 1 2 1 (by decide) (by decide) (by decide)⟩

-- ### C2 : cache get/has semantics

/-- Claim C2: after `set(k, v, ttl)` with `ttl > 0` at time `t0`, `get(k)` at
time `t` returns `v` when `t - t0 ≤ ttl`, and returns absent while deleting
the entry when `t - t0 > ttl`; and on every cache state `has` returns true
exactly when `get` would return a value, with the same expiry side effect. -/
theorem cache_set_get_has {α : Type} (defaultTtl : Int) (cache : Cache α)
    (key : String) (v : α) (ttl t0 t : Int) (httl : 0 < ttl) :
    ((t - t0 ≤ ttl →
        CacheService.get (CacheService.set defaultTtl cache key v (some ttl) t0) key t
          = (some v, CacheService.set defaultTtl cache key v (some ttl) t0)) ∧
     (ttl < t - t0 →
        CacheService.get (CacheService.set defaultTtl cache key v (some ttl) t0) key t
          = (none, mapDelete (CacheService.set defaultTtl cache key v (some ttl) t0) key))) ∧
    (∀ (c : Cache α) (k : String) (now : Int),
        ((CacheService.has c k now).1 = true ↔ ((CacheService.get c k now).1).isSome = true) ∧
        (CacheService.has c k now).2 = (CacheService.get c k now).2) := by
  have hset : CacheService.set defaultTtl cache key v (some ttl) t0
      = mapSet cache key { data := v, timestamp := t0, ttl := ttl } := by
    unfold CacheService.set
    have : ttl ≠ 0 := by omega
    simp [this]
  constructor
  · rw [hset]
    constructor
    · intro hle
      have hc : ¬ (t - t0 > ttl) := by omega
      simp [CacheService.get, mapGet_mapSet_self, hc]
    · intro hgt
      have hc : t - t0 > ttl := by omega
      simp [CacheService.get, mapGet_mapSet_self, hc]
  · intro c k now
    unfold CacheService.has CacheService.get
    cases mapGet c k with
    | none => simp
    | some item =>
        by_cases h : now - item.timestamp > item.ttl <;> simp [h]

/-- Witness for C2 at a singleton cache write with `ttl = 5`. -/
theorem cache_set_get_has_witness :
    ((0 : Int) < 5) ∧
    (((3 : Int) - 0 ≤ 5 →
        CacheService.get (CacheService.set 0 ([] : Cache ℕ) "k" 1 (some 5) 0) "k" 3
          = (some 1, CacheService.set 0 ([] : Cache ℕ) "k" 1 (some 5) 0)) ∧
     ((5 : Int) < 3 - 0 →
        CacheService.get (CacheService.set 0 ([] : Cache ℕ) "k" 1 (some 5) 0) "k" 3
          = (none, mapDelete (CacheService.set 0 ([] : Cache ℕ) "k" 1 (some 5) 0) "k"))) ∧
    (∀ (c : Cache ℕ) (k : String) (now : Int),
        ((CacheService.has c k now).1 = true ↔ ((CacheService.get c k now).1).isSome = true) ∧
        (CacheService.has c k now).2 = (CacheService.get c k now).2) :=
  ⟨by decide, (cache_set_get_has 0 [] "k" 1 5 0 3 (by decide)).1,
    (cache_set_get_has 0 [] "k" 1 5 0 3 (by decide)).2⟩

-- ### C10 : set with a zero TTL argument falls back to the default TTL

/-- Claim C10: `set(k, v, 0)` stores the entry with the configured default TTL
(the `ttl || defaultTtl` fallback fires on `0`), so instant expiry cannot be
requested through `set`, and an immediately following `get(k)` returns `v`
(given a non-negative configured default). -/
theorem cache_set_zero_ttl {α : Type} (defaultTtl : Int) (cache : Cache α)
    (key : String) (v : α) (t0 : Int) (hdt : 0 ≤ defaultTtl) :
    mapGet (CacheService.set defaultTtl cache key v (some 0) t0) key
      = some { data := v, timestamp := t0, ttl := defaultTtl } ∧
    CacheService.get (CacheService.set defaultTtl cache key v (some 0) t0) key t0
      = (some v, CacheService.set defaultTtl cache key v (some 0) t0) := by
  have hset : CacheService.set defaultTtl cache key v (some 0) t0
      = mapSet cache key { data := v, timestamp := t0, ttl := defaultTtl } := by
    unfold CacheService.set
    simp
  constructor
  · rw [hset, mapGet_mapSet_self]
  · rw [hset]
    have hc : ¬ (t0 - t0 > defaultTtl) := by omega
    simp [CacheService.get, mapGet_mapSet_self, hc]
    omega

/-- Witness for C10 at a default TTL of 3600000 ms. -/
theorem cache_set_zero_ttl_witness :
    ((0 : Int) ≤ 3600000) ∧
    (mapGet (CacheService.set 3600000 ([] : Cache ℕ) "k" 7 (some 0) 42) "k"
        = some { data := 7, timestamp := 42, ttl := 3600000 } ∧
     CacheService.get (CacheService.set 3600000 ([] : Cache ℕ) "k" 7 (some 0) 42) "k" 42
        = (some 7, CacheService.set 3600000 ([] : Cache ℕ) "k" 7 (some 0) 42)) :=
  ⟨by decide, cache_set_zero_ttl 3600000 [] "k" 7 42 (by decide)⟩

-- ### C7 : usage recording is total, additive and cost-monotone

/-- Claim C7: `trackUsage` adds non-negative amounts to the running prompt and
completion totals and never decreases the accumulated cost; when a usage
record is present the cost increment is exactly
`promptTokens * 0.15 / 1,000,000 + completionTokens * 0.6 / 1,000,000`.
The operation is a total function: recording never fails. -/
theorem trackUsage_monotone_cost (s : UsageState) (usage : Option TokenUsage) :
    s.estimatedCost ≤ (OpenAiService.trackUsage s usage).estimatedCost ∧
    s.prompt ≤ (OpenAiService.trackUsage s usage).prompt ∧
    s.completion ≤ (OpenAiService.trackUsage s usage).completion ∧
    (∀ u, usage = some u →
      (OpenAiService.trackUsage s usage).estimatedCost
        = s.estimatedCost + ((u.prompt_tokens.getD 0 : ℚ) * 0.15 / 1000000
            + (u.completion_tokens.getD 0 : ℚ) * 0.6 / 1000000)) := by
  cases usage with
  | none =>
      refine ⟨le_refl _, le_refl _, le_refl _, ?_⟩
      intro u hu
      exact absurd hu (by simp)
  | some u =>
      have hp : (0 : ℚ) ≤ (u.prompt_tokens.getD 0 : ℚ) * 0.15 / 1000000 := by positivity
      have hc : (0 : ℚ) ≤ (u.completion_tokens.getD 0 : ℚ) * 0.6 / 1000000 := by positivity
      refine ⟨?_, ?_, ?_, ?_⟩
      · show s.estimatedCost ≤ s.estimatedCost + _
        linarith
      · exact Nat.le_add_right _ _
      · exact Nat.le_add_right _ _
      · intro u2 hu2
        have : u2 = u := by injection hu2.symm
        subst this
        rfl

/-- Witness for C7 at a concrete usage record of 10 prompt / 20 completion
tokens on the zero state. -/
theorem trackUsage_monotone_cost_witness :
    (⟨0, 0, 0, 0⟩ : UsageState).estimatedCost
        ≤ (OpenAiService.trackUsage ⟨0, 0, 0, 0⟩ (some ⟨some 10, some 20, some 30⟩)).estimatedCost ∧
    (⟨0, 0, 0, 0⟩ : UsageState).prompt
        ≤ (OpenAiService.trackUsage ⟨0, 0, 0, 0⟩ (some ⟨some 10, some 20, some 30⟩)).prompt ∧
    (⟨0, 0, 0, 0⟩ : UsageState).completion
        ≤ (OpenAiService.trackUsage ⟨0, 0, 0, 0⟩ (some ⟨some 10, some 20, some 30⟩)).completion ∧
    (∀ u, (some ⟨some 10, some 20, some 30⟩ : Option TokenUsage) = some u →
      (OpenAiService.trackUsage ⟨0, 0, 0, 0⟩ (some ⟨some 10, some 20, some 30⟩)).estimatedCost
        = (⟨0, 0, 0, 0⟩ : UsageState).estimatedCost
            + ((u.prompt_tokens.getD 0 : ℚ) * 0.15 / 1000000
                + (u.completion_tokens.getD 0 : ℚ) * 0.6 / 1000000)) :=
  trackUsage_monotone_cost ⟨0, 0, 0, 0⟩ (some ⟨some 10, some 20, some 30⟩)

-- ### C8 : unknown transcript id

/-- Claim C8: for an id not present in the store, `getTranscriptById` returns
absent, and both mutation operations return the store unchanged (silent
no-op, never raising). -/
theorem unknown_id_noop (ts : List ParsedTranscript) (id category : String)
    (summary : Option String) (topics : List String)
    (h : ∀ t ∈ ts, t.id ≠ id) :
    getTranscriptById ts id = none ∧
    updateTranscriptClassification ts id category summary = ts ∧
    updateTranscriptTopics ts id topics = ts := by
  have hg : getTranscriptById ts id = none := by
    apply List.find?_eq_none.mpr
    intro t ht
    simpa using h t ht
  refine ⟨hg, ?_, ?_⟩
  · unfold updateTranscriptClassification
    rw [hg]
  · unfold updateTranscriptTopics
    rw [hg]

/-- Witness for C8: a one-element store and the id `"missing"`. -/
theorem unknown_id_noop_witness :
    (∀ t ∈ [(⟨"a", "a.txt", [], none, none, none, none⟩ : ParsedTranscript)],
        t.id ≠ "missing") ∧
    (getTranscriptById [⟨"a", "a.txt", [], none, none, none, none⟩] "missing" = none ∧
     updateTranscriptClassification [⟨"a", "a.txt", [], none, none, none, none⟩]
        "missing" "x" (some "s") = [⟨"a", "a.txt", [], none, none, none, none⟩] ∧
     updateTranscriptTopics [⟨"a", "a.txt", [], none, none, none, none⟩]
        "missing" ["topic"] = [⟨"a", "a.txt", [], none, none, none, none⟩]) :=
  ⟨by decide, unknown_id_noop [⟨"a", "a.txt", [], none, none, none, none⟩]
      "missing" "x" (some "s") ["topic"] (by decide)⟩

-- ### C9 : generateKey is field-order independent

theorem lookupA_perm {β : Type} {p q : List (String × β)} (hperm : p.Perm q) :
    (p.map Prod.fst).Nodup → ∀ k, lookupA p k = lookupA q k := by
  induction hperm with
  | nil => intro _ k; rfl
  | cons x h ih =>
      intro hnd k
      obtain ⟨kx, vx⟩ := x
      simp only [List.map_cons, List.nodup_cons] at hnd
      by_cases hk : kx = k <;> simp [lookupA, hk, ih hnd.2 k]
  | swap x y l =>
      intro hnd k
      obtain ⟨kx, vx⟩ := x
      obtain ⟨ky, vy⟩ := y
      simp only [List.map_cons, List.nodup_cons, List.mem_cons] at hnd
      have hxy : ky ≠ kx := fun hc => hnd.1 (Or.inl hc)
      by_cases h1 : ky = k
      · subst h1
        simp [lookupA, hxy.symm]
      · by_cases h2 : kx = k <;> simp [lookupA, h1, h2]
  | trans h1 h2 ih1 ih2 =>
      intro hnd k
      have hnd2 := ((h1.map Prod.fst).nodup_iff).mp hnd
      rw [ih1 hnd k, ih2 hnd2 k]

theorem sortedKeys_eq {p q : List String} (hperm : p.Perm q) :
    p.mergeSort (fun a b => decide (a ≤ b)) = q.mergeSort (fun a b => decide (a ≤ b)) := by
  have htrans : ∀ (a b c : String), decide (a ≤ b) = true → decide (b ≤ c) = true →
      decide (a ≤ c) = true := by
    intro a b c hab hbc
    simp only [decide_eq_true_eq] at *
    exact le_trans hab hbc
  have htotal : ∀ (a b : String), (decide (a ≤ b) || decide (b ≤ a)) = true := by
    intro a b
    rcases le_total a b with h | h <;> simp [h]
  apply List.eq_of_perm_of_sorted (r := fun a b : String => a ≤ b)
  · exact ((List.mergeSort_perm p _).trans hperm).trans (List.mergeSort_perm q _).symm
  · exact (List.sorted_mergeSort htrans htotal p).imp of_decide_eq_true
  · exact (List.sorted_mergeSort htrans htotal q).imp of_decide_eq_true

/-- Claim C9: `generateKey` is deterministic and independent of parameter
field order — for duplicate-free parameter records holding the same
key-value pairs in any order it produces the same key, because the keys are
sorted lexicographically before being joined. -/
theorem generateKey_param_order (pre : String) (p q : List (String × String))
    (hperm : p.Perm q) (hnd : (p.map Prod.fst).Nodup) :
    CacheService.generateKey pre p = CacheService.generateKey pre q := by
  simp only [CacheService.generateKey]
  rw [sortedKeys_eq (hperm.map Prod.fst)]
  have hlook := lookupA_perm hperm hnd
  congr 2
  apply List.map_congr_left
  intro k _
  rw [hlook k]

/-- Witness for C9: `generateKey("cache", {b:2, a:1}) = generateKey("cache", {a:1, b:2})`. -/
theorem generateKey_param_order_witness :
    ([("b", "2"), ("a", "1")] : List (String × String)).Perm [("a", "1"), ("b", "2")] ∧
    (([("b", "2"), ("a", "1")] : List (String × String)).map Prod.fst).Nodup ∧
    CacheService.generateKey "cache" [("b", "2"), ("a", "1")]
      = CacheService.generateKey "cache" [("a", "1"), ("b", "2")] :=
  ⟨by decide, by decide,
    generateKey_param_order "cache" [("b", "2"), ("a", "1")] [("a", "1"), ("b", "2")]
      (by decide) (by decide)⟩

-- ### C6 : classification failure sentinel

/-- Claim C6: for every transcript and every failing upstream outcome — the
request rejecting, or the cleaned response content failing to parse as JSON —
`classifyTranscript` returns (never throws) the sentinel result with
`category = "error"`, `confidence = 0`, and a non-empty reasoning string that
contains the error message. -/
theorem classifyTranscript_failure_sentinel
    (parseJson : String → Except String ClassificationResponse)
    (s : UsageState) (t : ParsedTranscript) (outcome : UpstreamOutcome) (msg : String)
    (hfail : outcome = UpstreamOutcome.failure msg ∨
      ∃ resp, outcome = UpstreamOutcome.success resp ∧
        parseJson (cleanJsonResponse (resp.content.getD "{}")) = Except.error msg) :
    ((OpenAiService.classifyTranscript parseJson s t outcome).1.transcriptId = t.id ∧
     (OpenAiService.classifyTranscript parseJson s t outcome).1.category = "error" ∧
     (OpenAiService.classifyTranscript parseJson s t outcome).1.confidence = 0) ∧
    ((OpenAiService.classifyTranscript parseJson s t outcome).1.reasoning
        = "Classification failed: " ++ msg ∧
     (OpenAiService.classifyTranscript parseJson s t outcome).1.reasoning ≠ "" ∧
     jsIncludes (OpenAiService.classifyTranscript parseJson s t outcome).1.reasoning msg
        = true) := by
  have hne : "Classification failed: " ++ msg ≠ "" :=
    append_ne_empty_of_left_ne _ msg (by decide)
  have hinc : jsIncludes ("Classification failed: " ++ msg) msg = true :=
    jsIncludes_append_self _ msg
  rcases hfail with hf | ⟨resp, hsucc, hparse⟩
  · subst hf
    exact ⟨⟨rfl, rfl, rfl⟩, rfl, hne, hinc⟩
  · subst hsucc
    have hres : OpenAiService.classifyTranscript parseJson s t (UpstreamOutcome.success resp)
        = ({ transcriptId := t.id, category := "error", confidence := 0,
             reasoning := "Classification failed: " ++ msg },
           OpenAiService.trackUsage s resp.usage) := by
      simp only [OpenAiService.classifyTranscript, hparse]
    rw [hres]
    exact ⟨⟨rfl, rfl, rfl⟩, rfl, hne, hinc⟩

/-- Witness for C6: a rejected upstream request with message `"boom"`. -/
theorem classifyTranscript_failure_sentinel_witness :
    ((UpstreamOutcome.failure "boom" = UpstreamOutcome.failure "boom" ∨
      ∃ resp, UpstreamOutcome.failure "boom" = UpstreamOutcome.success resp ∧
        (fun _ => Except.error "nope" : String → Except String ClassificationResponse)
            (cleanJsonResponse (resp.content.getD "{}")) = Except.error "boom")) ∧
    (((OpenAiService.classifyTranscript (fun _ => Except.error "nope") ⟨0, 0, 0, 0⟩
        ⟨"t1", "t1.txt", [], none, none, none, none⟩
        (UpstreamOutcome.failure "boom")).1.transcriptId = "t1" ∧
      (OpenAiService.classifyTranscript (fun _ => Except.error "nope") ⟨0, 0, 0, 0⟩
        ⟨"t1", "t1.txt", [], none, none, none, none⟩
        (UpstreamOutcome.failure "boom")).1.category = "error" ∧
      (OpenAiService.classifyTranscript (fun _ => Except.error "nope") ⟨0, 0, 0, 0⟩
        ⟨"t1", "t1.txt", [], none, none, none, none⟩
        (UpstreamOutcome.failure "boom")).1.confidence = 0) ∧
     ((OpenAiService.classifyTranscript (fun _ => Except.error "nope") ⟨0, 0, 0, 0⟩
        ⟨"t1", "t1.txt", [], none, none, none, none⟩
        (UpstreamOutcome.failure "boom")).1.reasoning = "Classification failed: " ++ "boom" ∧
      (OpenAiService.classifyTranscript (fun _ => Except.error "nope") ⟨0, 0, 0, 0⟩
        ⟨"t1", "t1.txt", [], none, none, none, none⟩
        (UpstreamOutcome.failure "boom")).1.reasoning ≠ "" ∧
      jsIncludes (OpenAiService.classifyTranscript (fun _ => Except.error "nope") ⟨0, 0, 0, 0⟩
        ⟨"t1", "t1.txt", [], none, none, none, none⟩
        (UpstreamOutcome.failure "boom")).1.reasoning "boom" = true)) :=
  ⟨Or.inl rfl,
    classifyTranscript_failure_sentinel (fun _ => Except.error "nope") ⟨0, 0, 0, 0⟩
      ⟨"t1", "t1.txt", [], none, none, none, none⟩ (UpstreamOutcome.failure "boom")
      "boom" (Or.inl rfl)⟩

-- ### C4 : speaker tokens are filtered but stored untranslated

/-- Claim C4 (code bug): the parser keeps exactly the lines whose speaker
token is one of the three recognized tokens `AGENTE`/`CLIENTE`/`SISTEMA`
(an English token such as `AGENT` is dropped), but it stores the matched
token unchanged — no message in a loaded transcript ever has a speaker equal
to `AGENT`, `CLIENT` or `SYSTEM`, contradicting the declared
`'AGENT' | 'CLIENT' | 'SYSTEM'` type of `TranscriptMessage.speaker` and the
downstream `speaker !== 'SYSTEM'` filter of `createTranscriptSummary`. -/
theorem parser_stores_spanish_speaker_tokens :
    parseTranscriptContent
        "[00:01] SISTEMA: inicio llamada\n[00:02] AGENT: hello\n[00:03] CLIENTE: hola"
      = [⟨"00:01", "SISTEMA", "inicio llamada"⟩, ⟨"00:03", "CLIENTE", "hola"⟩] ∧
    (∀ m ∈ parseTranscriptContent
        "[00:01] SISTEMA: inicio llamada\n[00:02] AGENT: hello\n[00:03] CLIENTE: hola",
      ¬ (["AGENT", "CLIENT", "SYSTEM"] : List String).contains m.speaker) ∧
    (createTranscriptSummary
        ⟨"t1", "t1.txt",
          parseTranscriptContent
            "[00:01] SISTEMA: inicio llamada\n[00:02] AGENT: hello\n[00:03] CLIENTE: hola",
          none, none, none, none⟩
      = "ID: t1\nMessages:\nSISTEMA: inicio llamada\nCLIENTE: hola") := by
  refine ⟨by decide, by decide, ?_⟩
  rfl

-- ### C3 : batch topic aggregation counts occurrences, not distinct transcripts

theorem lookupA_bumpTopic (m : List (String × TopicData)) (tid cat nt key : String) :
    lookupA (bumpTopic m tid cat nt) key =
      if nt = key then some (bump1 (lookupA m nt) tid cat) else lookupA m key := by
  induction m with
  | nil =>
      by_cases h : nt = key <;> simp [bumpTopic, lookupA, bump1, h]
  | cons kd rest ih =>
      obtain ⟨k0, d0⟩ := kd
      by_cases h1 : k0 = nt
      · subst h1
        by_cases h2 : k0 = key <;> simp [bumpTopic, lookupA, bump1, h2]
      · by_cases h2 : k0 = key
        · subst h2
          have h3 : nt ≠ k0 := fun hc => h1 hc.symm
          simp [bumpTopic, lookupA, h1, h3]
        · by_cases h3 : nt = key
          · subst h3
            simp [bumpTopic, lookupA, h1, h2, ih]
          · simp [bumpTopic, lookupA, h1, h2, h3, ih]

theorem fold_bump_freq (tid cat : String) (ts : List String) :
    ∀ (m : List (String × TopicData)) (key : String),
      freqOf (lookupA (ts.foldl (fun acc tp => bumpTopic acc tid cat (normalizeTopic tp)) m) key)
        = freqOf (lookupA m key) + (ts.map normalizeTopic).count key := by
  induction ts with
  | nil => intro m key; simp
  | cons tp rest ih =>
      intro m key
      simp only [List.foldl_cons, List.map_cons]
      rw [ih, lookupA_bumpTopic]
      by_cases h : normalizeTopic tp = key
      · rw [if_pos h]
        subst h
        cases hl : lookupA m (normalizeTopic tp) <;>
          simp [bump1, freqOf, List.count_cons, hl] <;> omega
      · rw [if_neg h]
        simp [List.count_cons, h]

theorem fold_bump_trans (tid cat : String) (ts : List String) :
    ∀ (m : List (String × TopicData)) (key : String),
      transOf (lookupA (ts.foldl (fun acc tp => bumpTopic acc tid cat (normalizeTopic tp)) m) key)
        = transOf (lookupA m key) ++ List.replicate ((ts.map normalizeTopic).count key) tid := by
  induction ts with
  | nil => intro m key; simp
  | cons tp rest ih =>
      intro m key
      simp only [List.foldl_cons, List.map_cons]
      rw [ih, lookupA_bumpTopic]
      by_cases h : normalizeTopic tp = key
      · rw [if_pos h]
        subst h
        cases hl : lookupA m (normalizeTopic tp) <;>
          simp [bump1, transOf, List.count_cons, hl, List.replicate_succ,
            List.append_assoc, List.singleton_append]
      · rw [if_neg h]
        simp [List.count_cons, h]

theorem buildTopicMap_freq (analyses : List TranscriptAnalysis) (key : String) :
    ∀ (m : List (String × TopicData)),
      freqOf (lookupA (analyses.foldl addTranscriptTopics m) key)
        = freqOf (lookupA m key) + (analyses.map (fun a => occCount a key)).sum := by
  induction analyses with
  | nil => intro m; simp
  | cons a rest ih =>
      intro m
      simp only [List.foldl_cons, List.map_cons, List.sum_cons]
      rw [ih]
      unfold addTranscriptTopics
      rw [fold_bump_freq]
      unfold occCount
      omega

theorem buildTopicMap_trans (analyses : List TranscriptAnalysis) (key : String) :
    ∀ (m : List (String × TopicData)),
      transOf (lookupA (analyses.foldl addTranscriptTopics m) key)
        = transOf (lookupA m key)
            ++ analyses.flatMap (fun a => List.replicate (occCount a key) a.transcriptId) := by
  induction analyses with
  | nil => intro m; simp
  | cons a rest ih =>
      intro m
      simp only [List.foldl_cons, List.flatMap_cons]
      rw [ih]
      unfold addTranscriptTopics
      rw [fold_bump_trans]
      unfold occCount
      rw [List.append_assoc]

/-- Counterexample to claim C3 as stated: one transcript whose AI-reported
topic list contains the same topic twice after normalisation
(`"Billing"` and `"billing "`). The aggregate reports frequency 2 although
only one distinct transcript contributes, and `relevantTranscripts` contains
the duplicate `["t1", "t1"]`. -/
theorem aggregateTopics_duplicate_counterexample :
    ∃ o ∈ OpenAiService.aggregateTopics
        [⟨"t1", ["Billing", "billing "], "billing_issues"⟩] 5,
      ¬ o.relevantTranscripts.Nodup ∧
      o.frequency ≠ ([(⟨"t1", ["Billing", "billing "], "billing_issues"⟩ : TranscriptAnalysis)].countP
          (fun a => (a.topics.map normalizeTopic).contains (normalizeTopic o.topic))) := by
  have h1 : buildTopicMap [⟨"t1", ["Billing", "billing "], "billing_issues"⟩]
      = [("billing", ⟨2, ["t1", "t1"], ["billing_issues"]⟩)] := by decide
  have h2 : OpenAiService.aggregateTopics
      [⟨"t1", ["Billing", "billing "], "billing_issues"⟩] 5
      = [⟨"Billing", 2, ["t1", "t1"], ["billing_issues"],
          "Issues related to billing, charges, and payment inquiries"⟩] := by
    unfold OpenAiService.aggregateTopics sortByFrequencyDesc
    rw [h1]
    simp only [List.map_cons, List.map_nil, List.mergeSort_singleton]
    rw [show (List.take 5 [(⟨capitalizeFirstLetter "billing",
      (⟨2, ["t1", "t1"], ["billing_issues"]⟩ : TopicData).frequency,
      (⟨2, ["t1", "t1"], ["billing_issues"]⟩ : TopicData).transcripts,
      (⟨2, ["t1", "t1"], ["billing_issues"]⟩ : TopicData).categories,
      OpenAiService.generateTopicDescription "billing"⟩ : TopicAnalysis)])
        = [(⟨capitalizeFirstLetter "billing", 2, ["t1", "t1"], ["billing_issues"],
            OpenAiService.generateTopicDescription "billing"⟩ : TopicAnalysis)] from rfl]
    decide
  rw [h2]
  exact ⟨_, List.mem_singleton.mpr rfl, by decide, by decide⟩

theorem length_flatMap_replicate (analyses : List TranscriptAnalysis) (key : String) :
    (analyses.flatMap (fun a => List.replicate (occCount a key) a.transcriptId)).length
      = (analyses.map (fun a => occCount a key)).sum := by
  induction analyses with
  | nil => simp
  | cons a rest ih =>
      simp only [List.flatMap_cons, List.length_append, List.length_replicate,
        List.map_cons, List.sum_cons, ih]

/-- Claim C3 amended: in the `topicMap` aggregated by
`extractTopicsFromBatch`, a topic's `frequency` equals the total number of
occurrences of the (case-normalised, trimmed) topic across the transcripts'
topic lists — one per occurrence, not one per distinct transcript — and
`relevantTranscripts` holds the contributing transcript id once per
occurrence (so it can contain duplicates when one transcript repeats a
topic after normalisation); its length equals `frequency`. -/
theorem buildTopicMap_occurrence_counts (analyses : List TranscriptAnalysis)
    (key : String) (d : TopicData)
    (h : lookupA (buildTopicMap analyses) key = some d) :
    d.frequency = (analyses.map (fun a => occCount a key)).sum ∧
    d.transcripts = analyses.flatMap
      (fun a => List.replicate (occCount a key) a.transcriptId) ∧
    d.transcripts.length = d.frequency := by
  have hf := buildTopicMap_freq analyses key []
  have ht := buildTopicMap_trans analyses key []
  unfold buildTopicMap at h
  rw [h] at hf ht
  simp only [freqOf, transOf, lookupA] at hf ht
  simp only [Nat.zero_add, List.nil_append] at hf ht
  exact ⟨hf, ht, by rw [ht, length_flatMap_replicate, hf]⟩

/-- Witness for the amended C3 at a one-transcript, one-topic aggregation. -/
theorem buildTopicMap_occurrence_counts_witness :
    lookupA (buildTopicMap [⟨"t2", ["a"], "c"⟩]) "a" = some ⟨1, ["t2"], ["c"]⟩ ∧
    ((⟨1, ["t2"], ["c"]⟩ : TopicData).frequency
        = ([(⟨"t2", ["a"], "c"⟩ : TranscriptAnalysis)].map (fun a => occCount a "a")).sum ∧
     (⟨1, ["t2"], ["c"]⟩ : TopicData).transcripts
        = [(⟨"t2", ["a"], "c"⟩ : TranscriptAnalysis)].flatMap
            (fun a => List.replicate (occCount a "a") a.transcriptId) ∧
     (⟨1, ["t2"], ["c"]⟩ : TopicData).transcripts.length
        = (⟨1, ["t2"], ["c"]⟩ : TopicData).frequency) :=
  ⟨by decide, buildTopicMap_occurrence_counts [⟨"t2", ["a"], "c"⟩] "a"
      ⟨1, ["t2"], ["c"]⟩ (by decide)⟩

-- ### C5 : search scoring, ordering and pagination

theorem scoreMessages_go (ql : String) (msgs : List TranscriptMessage) :
    ∀ (accL : List TranscriptMessage) (accN : ℕ),
      msgs.foldl (fun acc m => if msgMatches ql m then (acc.1 ++ [m], acc.2 + 1) else acc)
          (accL, accN)
        = (accL ++ msgs.filter (msgMatches ql), accN + msgs.countP (msgMatches ql)) := by
  induction msgs with
  | nil => intro accL accN; simp
  | cons m rest ih =>
      intro accL accN
      cases h : msgMatches ql m with
      | true =>
          simp only [List.foldl_cons, h, if_true]
          rw [ih]
          simp [List.filter_cons, List.countP_cons, h, List.append_assoc]
          omega
      | false =>
          simp only [List.foldl_cons, h, if_false]
          rw [ih]
          simp [List.filter_cons, List.countP_cons, h]

theorem scoreMessages_eq (ql : String) (msgs : List TranscriptMessage) :
    scoreMessages ql msgs = (msgs.filter (msgMatches ql), msgs.countP (msgMatches ql)) := by
  unfold scoreMessages
  rw [scoreMessages_go]
  simp

theorem scoreTranscript_eq (ql : String) (t : ParsedTranscript) :
    scoreTranscript ql t
      = { transcript := t, relevanceScore := specScore ql t,
          matchedMessages := t.messages.filter (msgMatches ql) } := by
  unfold scoreTranscript specScore
  rw [scoreMessages_eq]

theorem foldl_push_filter {α β : Type} (f : α → β) (p : β → Prop) [DecidablePred p]
    (l : List α) :
    ∀ acc : List β,
      l.foldl (fun acc t => if p (f t) then acc ++ [f t] else acc) acc
        = acc ++ (l.map f).filter (fun b => decide (p b)) := by
  induction l with
  | nil => intro acc; simp
  | cons a rest ih =>
      intro acc
      simp only [List.foldl_cons, List.map_cons]
      by_cases h : p (f a)
      · rw [if_pos h, ih]
        simp [List.filter_cons, h, List.append_assoc]
      · rw [if_neg h, ih]
        simp [List.filter_cons, h]

theorem scoreDesc_trans (a b c : SearchResult) :
    decide (b.relevanceScore ≤ a.relevanceScore) = true →
    decide (c.relevanceScore ≤ b.relevanceScore) = true →
    decide (c.relevanceScore ≤ a.relevanceScore) = true := by
  simp only [decide_eq_true_eq]
  omega

theorem scoreDesc_total (a b : SearchResult) :
    (decide (b.relevanceScore ≤ a.relevanceScore)
      || decide (a.relevanceScore ≤ b.relevanceScore)) = true := by
  rcases Nat.le_total b.relevanceScore a.relevanceScore with h | h <;> simp [h]

/-- Claim C5: `searchTranscripts` coincides with the spec-side pipeline — the
relevance score is the number of case-insensitively matching messages, plus 2
for a summary match, plus 3 for a topic match; zero-score transcripts are
excluded; results are the `[(page-1)*limit, page*limit)` slice of the list
sorted stably by descending score. The returned page is sorted descending by
score (so a topic-only match, score 3, precedes a message-only match,
score 1), and the stable sort keeps equal-score entries in their original
relative order. -/
theorem searchTranscripts_matches_spec (ts : List ParsedTranscript) (query : String)
    (category : Option String) (page limit : ℕ) (hpage : 1 ≤ page) :
    searchTranscripts ts query category page limit
        = specSearch ts query category page limit ∧
    (searchTranscripts ts query category page limit).results.Pairwise
      (fun a b => b.relevanceScore ≤ a.relevanceScore) ∧
    (∀ (l : List SearchResult) (i j : ℕ) (hi : i < l.length) (hj : j < l.length),
      i < j → (l.get ⟨i, hi⟩).relevanceScore = (l.get ⟨j, hj⟩).relevanceScore →
      [l.get ⟨i, hi⟩, l.get ⟨j, hj⟩].Sublist (sortByScoreDesc l)) := by
  have hkey : ∀ (pool : List ParsedTranscript) (ql : String),
      pool.foldl (fun acc t =>
        let r := scoreTranscript ql t
        if r.relevanceScore > 0 then acc ++ [r] else acc) []
      = (pool.map (fun t =>
            ({ transcript := t,
               relevanceScore := specScore ql t,
               matchedMessages := t.messages.filter (msgMatches ql) } : SearchResult))).filter
          (fun r => 0 < r.relevanceScore) := by
    intro pool ql
    rw [show (fun (acc : List SearchResult) t =>
        let r := scoreTranscript ql t
        if r.relevanceScore > 0 then acc ++ [r] else acc)
      = (fun acc t =>
        if (fun r => 0 < r.relevanceScore) (scoreTranscript ql t)
        then acc ++ [scoreTranscript ql t] else acc) from rfl]
    rw [foldl_push_filter (scoreTranscript ql) (fun r => 0 < r.relevanceScore) pool []]
    simp only [List.nil_append]
    congr 1
    apply List.map_congr_left
    intro t _
    exact scoreTranscript_eq ql t
  refine ⟨?_, ?_, ?_⟩
  · simp only [searchTranscripts, specSearch]
    rw [hkey]
  · simp only [searchTranscripts]
    apply List.Pairwise.sublist ((List.take_sublist _ _).trans (List.drop_sublist _ _))
    apply List.Pairwise.imp (fun h => of_decide_eq_true h)
    exact List.sorted_mergeSort scoreDesc_trans scoreDesc_total _
  · intro l i j hi hj hij hscore
    have hj2 : j - (i + 1) < (l.drop (i + 1)).length := by
      rw [List.length_drop]
      omega
    have hmem : l.get ⟨j, hj⟩ ∈ l.drop (i + 1) := by
      have heq : (i + 1) + (j - (i + 1)) = j := by omega
      have h6 : (l.drop (i + 1)).get ⟨j - (i + 1), hj2⟩ = l.get ⟨j, hj⟩ := by
        simp only [List.get_eq_getElem, List.getElem_drop, heq]
      rw [← h6]
      exact List.get_mem _ _ hj2
    apply List.sublist_mergeSort scoreDesc_trans scoreDesc_total
    · refine List.pairwise_cons.mpr ⟨?_, by simp⟩
      intro b hb
      rw [List.mem_singleton] at hb
      subst hb
      simp only [List.get_eq_getElem] at hscore
      simp [hscore]
    · have h1 : [l.get ⟨j, hj⟩].Sublist (l.drop (i + 1)) :=
        List.singleton_sublist.mpr hmem
      have h2 : [l.get ⟨i, hi⟩, l.get ⟨j, hj⟩].Sublist (l.get ⟨i, hi⟩ :: l.drop (i + 1)) :=
        h1.cons₂ _
      have h3 : l.get ⟨i, hi⟩ :: l.drop (i + 1) = l.drop i := by
        rw [List.get_eq_getElem]
        exact List.getElem_cons_drop l i hi
      exact h2.trans (h3 ▸ List.drop_sublist i l)

/-- Witness for C5 at `page = 1` on a two-transcript store where one
transcript matches only by topic and the other only by one message. -/
theorem searchTranscripts_matches_spec_witness :
    (1 : ℕ) ≤ 1 ∧
    (searchTranscripts
        [⟨"a", "a.txt", [⟨"00:01", "CLIENTE", "hello"⟩], none, none, none, some ["query topic"]⟩,
         ⟨"b", "b.txt", [⟨"00:01", "CLIENTE", "a query here"⟩], none, none, none, none⟩]
        "query" none 1 10
      = specSearch
        [⟨"a", "a.txt", [⟨"00:01", "CLIENTE", "hello"⟩], none, none, none, some ["query topic"]⟩,
         ⟨"b", "b.txt", [⟨"00:01", "CLIENTE", "a query here"⟩], none, none, none, none⟩]
        "query" none 1 10 ∧
    (searchTranscripts
        [⟨"a", "a.txt", [⟨"00:01", "CLIENTE", "hello"⟩], none, none, none, some ["query topic"]⟩,
         ⟨"b", "b.txt", [⟨"00:01", "CLIENTE", "a query here"⟩], none, none, none, none⟩]
        "query" none 1 10).results.Pairwise
      (fun a b => b.relevanceScore ≤ a.relevanceScore) ∧
    (∀ (l : List SearchResult) (i j : ℕ) (hi : i < l.length) (hj : j < l.length),
      i < j → (l.get ⟨i, hi⟩).relevanceScore = (l.get ⟨j, hj⟩).relevanceScore →
      [l.get ⟨i, hi⟩, l.get ⟨j, hj⟩].Sublist (sortByScoreDesc l))) :=
  ⟨by decide,
    searchTranscripts_matches_spec
      [⟨"a", "a.txt", [⟨"00:01", "CLIENTE", "hello"⟩], none, none, none, some ["query topic"]⟩,
       ⟨"b", "b.txt", [⟨"00:01", "CLIENTE", "a query here"⟩], none, none, none, none⟩]
      "query" none 1 10 (by decide)⟩
